import Mathlib

/-!
Verification development for the amazon-cloudwatch-agent-operator core:
a shallow embedding of the collector configuration-upgrade step v0.31.0,
the ServiceAccount reconciler, the instrumentation batch upgrader and the
instrumentation webhook env validation, together with theorems settling
the specification's claims about them.
-/

namespace CWAOperator

/-! ## Generic YAML-like configuration tree (ConfigDocument)

The embedded collector configuration is parsed by `adapters.ConfigFromString`
into a `map[interface{}]interface{}` (gopkg.in/yaml.v2).  Keys and values are
arbitrary YAML scalars or nested maps; we model the tree shape that the
upgrade code manipulates. -/

/-- A YAML value: typed scalars (string/int/bool/null) or a mapping.
Mappings are association lists of (key, value) pairs; YAML keys may be
non-string scalars (e.g. the unquoted key `1` parses as an integer). -/
inductive YVal where
  | str  : String → YVal
  | int  : Int → YVal
  | bool : Bool → YVal
  | null : YVal
  | map  : List (YVal × YVal) → YVal

/-- A parsed configuration document: the top-level YAML mapping. -/
abbrev Doc := List (YVal × YVal)

/-! ### Character-level helpers for the parser/serializer -/

/-- Embedding of Go `strings.HasPrefix` (used by the upgrade step and the
webhook): byte/char-wise prefix test. -/
def startsWithGo (s pre : String) : Bool :=
  pre.data.isPrefixOf s.data

/-- Count leading spaces of a line. -/
def countIndent : List Char → Nat
  | ' ' :: rest => countIndent rest + 1
  | _ => 0

/-- Drop leading spaces. -/
def dropIndent : List Char → List Char
  | ' ' :: rest => dropIndent rest
  | l => l

/-- Drop trailing spaces and carriage returns. -/
def trimRight (l : List Char) : List Char :=
  ((l.reverse.dropWhile fun c => c = ' ' ∨ c = '\r')).reverse

/-- Split a string into its lines (separator `'\n'`). -/
def splitLinesAux (cur : List Char) (acc : List (List Char)) : List Char → List (List Char)
  | [] => (cur.reverse :: acc).reverse
  | '\n' :: rest => splitLinesAux [] (cur.reverse :: acc) rest
  | c :: rest => splitLinesAux (c :: cur) acc rest

def splitLines (s : String) : List (List Char) :=
  splitLinesAux [] [] s.data

/-- Non-blank lines of the input, as (indent, trimmed content) pairs. -/
def prepLines (s : String) : List (Nat × List Char) :=
  (splitLines s).filterMap fun l =>
    let content := trimRight (dropIndent l)
    if content = [] then none else some (countIndent l, content)

/-- Is the char list entirely decimal digits (and nonempty)? -/
def allDigits : List Char → Bool
  | [] => false
  | [c] => c.isDigit
  | c :: rest => c.isDigit && allDigits rest

/-- Numeric value of a digit list (most significant first). -/
def digitsToNat : List Char → Nat → Nat
  | [], acc => acc
  | c :: rest, acc => digitsToNat rest (acc * 10 + (c.toNat - '0'.toNat))

/-- Type an inline YAML scalar token the way yaml.v2 does for plain
scalars: null / bool / int / empty flow map / string. -/
def scalarOfChars (l : List Char) : YVal :=
  if l = [] then .null
  else if l = ['n', 'u', 'l', 'l'] ∨ l = ['~'] then .null
  else if l = ['t', 'r', 'u', 'e'] then .bool true
  else if l = ['f', 'a', 'l', 's', 'e'] then .bool false
  else if l = ['\x7b', '\x7d'] then .map []
  else if allDigits l then .int (digitsToNat l 0)
  else if l.head? = some '-' ∧ allDigits l.tail then .int (-(digitsToNat l.tail 0 : Int))
  else .str (String.mk l)

/-- Split one mapping line into key chars and, when present, inline value
chars: `key: value` or a trailing `key:`.  Returns `none` when the line is
not a mapping entry (no colon), which makes the document malformed. -/
def splitEntryAux (acc : List Char) : List Char → Option (List Char × Option (List Char))
  | [] => none
  | [':'] => some (acc.reverse, none)
  | ':' :: ' ' :: rest => some (acc.reverse, some (trimRight (dropIndent rest)))
  | ':' :: _ => none
  | c :: rest => splitEntryAux (c :: acc) rest

def splitEntry (l : List Char) : Option (List Char × Option (List Char)) :=
  splitEntryAux [] l

/-- Modelled from the spec: the ConfigDocument parse operation (§4.1).
The adapters package's `ConfigFromString` (not under src/; only its tests
and callers are) delegates to yaml.v2 `Unmarshal` into a
`map[interface{}]interface{}`.  We model the block-mapping fragment of
YAML: nested mappings by indentation, typed plain scalars, blank input
yielding an empty document, and any input that is not a top-level mapping
(or is structurally malformed) yielding a parse error.  `fuel` bounds the
recursion by the number of remaining lines. -/
def parseBlock : Nat → Nat → List (Nat × List Char) →
    Except Unit (List (YVal × YVal) × List (Nat × List Char))
  | 0, _, _ => .error ()
  | _ + 1, _, [] => .ok ([], [])
  | fuel + 1, i, (j, content) :: rest =>
    if j < i then .ok ([], (j, content) :: rest)
    else if i < j then .error ()
    else
      match splitEntry content with
      | none => .error ()
      | some (k, some v) =>
        match parseBlock fuel i rest with
        | .error e => .error e
        | .ok (entries, rem) => .ok ((scalarOfChars k, scalarOfChars v) :: entries, rem)
      | some (k, none) =>
        match rest with
        | (j', c') :: rest' =>
          if i < j' then
            match parseBlock fuel j' ((j', c') :: rest') with
            | .error e => .error e
            | .ok (sub, rem) =>
              match parseBlock fuel i rem with
              | .error e => .error e
              | .ok (entries, rem') => .ok ((scalarOfChars k, .map sub) :: entries, rem')
          else
            match parseBlock fuel i ((j', c') :: rest') with
            | .error e => .error e
            | .ok (entries, rem) => .ok ((scalarOfChars k, .null) :: entries, rem)
        | [] => .ok ([(scalarOfChars k, .null)], [])

/-- Modelled from the spec: `parse(text) -> ConfigDocument | ParseError`
(§4.1).  Blank input yields the empty document. -/
def parseYamlDoc (s : String) : Except Unit Doc :=
  match prepLines s with
  | [] => .ok []
  | (i, c) :: rest =>
    match parseBlock ((((i, c) :: rest).length) + 1) i ((i, c) :: rest) with
    | .error e => .error e
    | .ok (d, []) => .ok d
    | .ok (_, _ :: _) => .error ()

/-- The distinguished parse error returned by `adapters.ConfigFromString`. -/
inductive YamlErr where
  | invalidYAML
deriving DecidableEq

def ErrInvalidYAML : YamlErr := .invalidYAML

/-- Modelled from the spec: `adapters.ConfigFromString` (pkg/collector/adapters,
not under src/; src has only its tests `TestInvalidYAML`/`TestEmptyString`
and its caller `upgrade0_31_0`).  Go shape: returns (config, error); on a
yaml.v2 unmarshal failure it returns (nil, ErrInvalidYAML). -/
def ConfigFromString (s : String) : Option Doc × Option YamlErr :=
  match parseYamlDoc s with
  | .ok d => (some d, none)
  | .error _ => (none, some ErrInvalidYAML)

/-! ### Serialization (yaml.v2 `Marshal`) -/

/-- Render a scalar (used for both keys and inline values). -/
def renderScalar : YVal → List Char
  | .str s => s.data
  | .int n => if n < 0 then '-' :: Nat.toDigits 10 n.natAbs else Nat.toDigits 10 n.natAbs
  | .bool b => if b then ['t', 'r', 'u', 'e'] else ['f', 'a', 'l', 's', 'e']
  | .null => ['n', 'u', 'l', 'l']
  | .map _ => []

/-- Lexicographic order on char lists, for yaml.v2's sorted map keys. -/
def lexLe : List Char → List Char → Bool
  | [], _ => true
  | _ :: _, [] => false
  | a :: as, b :: bs => if a = b then lexLe as bs else decide (a < b)

/-- Insertion sort of mapping entries by rendered key (yaml.v2 marshals
maps with sorted keys). -/
def insertSorted (e : YVal × YVal) : List (YVal × YVal) → List (YVal × YVal)
  | [] => [e]
  | f :: rest =>
    if lexLe (renderScalar e.1) (renderScalar f.1) then e :: f :: rest
    else f :: insertSorted e rest

def sortEntries : List (YVal × YVal) → List (YVal × YVal)
  | [] => []
  | e :: rest => insertSorted e (sortEntries rest)

def spacesChars : Nat → List Char
  | 0 => []
  | n + 1 => ' ' :: spacesChars n

/-- Modelled from the spec: the ConfigDocument serialize operation (§4.1),
following yaml.v2 `Marshal` of a `map[interface{}]interface{}`: keys
sorted, two-space indentation, `null` for null values, `\x7b\x7d` for an
empty nested map, a nested block for a nonempty one.  Re-serialization is
not byte-identical to the original formatting.  `fuel` bounds nesting
depth. -/
def serEntries : Nat → Nat → List (YVal × YVal) → List Char
  | 0, _, _ => []
  | fuel + 1, ind, d =>
    (sortEntries d).flatMap fun e =>
      spacesChars ind ++ renderScalar e.1 ++
        match e.2 with
        | .map [] => [':', ' ', '\x7b', '\x7d', '\n']
        | .map sub => [':', '\n'] ++ serEntries fuel (ind + 2) sub
        | v => [':', ' '] ++ renderScalar v ++ ['\n']

mutual

/-- Structural size, used as serializer fuel (an over-approximation of
nesting depth). -/
def yvalFuel : YVal → Nat
  | .str _ => 1
  | .int _ => 1
  | .bool _ => 1
  | .null => 1
  | .map es => entriesFuel es + 1

def entriesFuel : List (YVal × YVal) → Nat
  | [] => 1
  | e :: rest => yvalFuel e.1 + yvalFuel e.2 + entriesFuel rest + 1

end

def docSizeBound (d : Doc) : Nat :=
  entriesFuel d + 1

def serializeDoc (d : Doc) : String :=
  String.mk (serEntries (docSizeBound d) 0 d)

/-- Go `cfg[key]` on the parsed document, looked up by a string key. -/
def isStrKey (k : YVal) (s : String) : Bool :=
  match k with
  | .str t => t == s
  | _ => false

def docGet (d : Doc) (s : String) : Option YVal :=
  (d.find? fun e => isStrKey e.1 s).map (·.2)

/-- Go `cfg[key] = v` on the parsed document. -/
def docSet (d : Doc) (s : String) (v : YVal) : Doc :=
  if d.any fun e => isStrKey e.1 s then
    d.map fun e => if isStrKey e.1 s then (e.1, v) else e
  else d ++ [(.str s, v)]

/-! ## The v0.31.0 collector configuration upgrade step

Embedding of `upgrade0_31_0` (src/pkg/collector/upgrade/v0_31_0.go).  The
Go function receives a pointer `*v1alpha1.AmazonCloudWatchAgent`, may
assign `otelcol.Spec.Config` through that pointer, and returns the very
same pointer; we therefore record both the post-call state of the received
object and the returned object (they alias).  Unchecked type assertions
(`k.(string)`, `fieldKey.(string)`) are modelled as an explicit panic
outcome. -/

/-- The fields of the specification the upgrade step touches:
`Spec.Config`, the embedded configuration text. -/
structure AmazonCloudWatchAgent where
  specConfig : String
deriving DecidableEq

/-- Result of a run that returned normally: the state of the object the
step received (after any in-place mutation), the returned object, and
whether a non-nil error was returned. -/
structure StepRet where
  received : AmazonCloudWatchAgent
  returned : AmazonCloudWatchAgent
  isError  : Bool
deriving DecidableEq

inductive StepOutcome where
  | ret (r : StepRet)
  | panicked
deriving DecidableEq

/-- The inner loop over one influxdb receiver's fields
(v0_31_0.go lines 45-53): `fieldKey.(string)` panics on a non-string key
(`none`); a key with prefix `metrics_schema` is deleted from the map. -/
def processFields : List (YVal × YVal) → Option (List (YVal × YVal))
  | [] => some []
  | (k, v) :: rest =>
    match k with
    | .str s =>
      if startsWithGo s "metrics_schema" then processFields rest
      else (processFields rest).map ((.str s, v) :: ·)
    | _ => none

/-- Outcome of the loop over the receivers map (v0_31_0.go lines 34-55). -/
inductive RecvOut where
  | panic
  | early
  | done (rs : List (YVal × YVal))

/-- The loop over the receivers map: `k.(string)` panics on a non-string
key; a receiver named `influxdb*` whose value is not a map triggers the
early `return otelcol, nil`; otherwise its fields are filtered.  Go map
iteration order is unspecified; we iterate in parse order. -/
def processReceivers : List (YVal × YVal) → RecvOut
  | [] => .done []
  | (k, v) :: rest =>
    match k with
    | .str s =>
      if startsWithGo s "influxdb" then
        match v with
        | .map fields =>
          match processFields fields with
          | none => .panic
          | some fields' =>
            match processReceivers rest with
            | .done rs => .done ((.str s, .map fields') :: rs)
            | o => o
        | _ => .early
      else
        match processReceivers rest with
        | .done rs => .done ((.str s, v) :: rs)
        | o => o
    | _ => .panic

/-- `upgrade0_31_0` (src/pkg/collector/upgrade/v0_31_0.go lines 18-64).
Steps: empty config returns unchanged; a parse failure returns the
unchanged object with an error; a missing or non-map `receivers` entry
returns unchanged with no error; otherwise the receivers loop runs, the
(possibly modified) receivers are written back, the document is
re-marshalled and assigned to `Spec.Config` in place (`yaml.Marshal` of
this value model cannot fail, so its error branch is not represented). -/
def upgrade0_31_0 (otelcol : AmazonCloudWatchAgent) : StepOutcome :=
  if otelcol.specConfig = "" then .ret ⟨otelcol, otelcol, false⟩
  else
    match parseYamlDoc otelcol.specConfig with
    | .error _ => .ret ⟨otelcol, otelcol, true⟩
    | .ok cfg =>
      match docGet cfg "receivers" with
      | some (.map receivers) =>
        match processReceivers receivers with
        | .panic => .panicked
        | .early => .ret ⟨otelcol, otelcol, false⟩
        | .done rs =>
          let cfg' := docSet cfg "receivers" (.map rs)
          let a' : AmazonCloudWatchAgent := ⟨serializeDoc cfg'⟩
          .ret ⟨a', a', false⟩
      | _ => .ret ⟨otelcol, otelcol, false⟩

/-! ## ServiceAccount reconciler

Embedding of `ServiceAccounts` / `expectedServiceAccounts` /
`deleteServiceAccounts` (pkg/reconcile/serviceaccount.go in src).  The
remote object store is modelled as a list of live objects plus an
injectable fault map for the `Other(error)` outcomes of the store
abstraction (§6 of the spec); store calls within one pass are issued
sequentially, creates/patches/deletes updating the store state. -/

/-- String-keyed map (Go `map[string]string`), kept as a key-sorted
association list so that Go map equality is list equality. -/
abbrev Smap := List (String × String)

def smapGet (m : Smap) (k : String) : Option String :=
  (m.find? fun e => e.1 == k).map (·.2)

/-- Strict lexicographic order on char lists. -/
def lexLt : List Char → List Char → Bool
  | [], [] => false
  | [], _ :: _ => true
  | _ :: _, [] => false
  | a :: as, b :: bs => if a = b then lexLt as bs else decide (a < b)

def smapInsert (m : Smap) (k v : String) : Smap :=
  match m with
  | [] => [(k, v)]
  | e :: rest =>
    if k = e.1 then (k, v) :: rest
    else if lexLt k.data e.1.data then (k, v) :: e :: rest
    else e :: smapInsert rest k v

/-- `for k, v := range src { dst[k] = v }`. -/
def smapInsertAll (dst src : Smap) : Smap :=
  src.foldl (fun acc e => smapInsert acc e.1 e.2) dst

/-- The ServiceAccount fields the reconciler reads and writes. -/
structure ServiceAccount where
  name : String
  ns : String
  labels : Smap
  annotations : Smap
  ownerRefs : List String
deriving DecidableEq

/-- The fields of `params.Instance` the ServiceAccount reconciler uses. -/
structure Instance where
  name : String
  ns : String
  mode : String
  serviceAccount : String
deriving DecidableEq

/-- Identity token for the owner back-reference attached by
`controllerutil.SetControllerReference`. -/
def instKey (inst : Instance) : String :=
  inst.ns ++ "/" ++ inst.name

/-- `controllerutil.SetControllerReference(&params.Instance, &desired, ...)`:
the desired object's owner references become the single controller
reference to the instance (the scheme is registered, so no error). -/
def setControllerReference (inst : Instance) (sa : ServiceAccount) : ServiceAccount :=
  { sa with ownerRefs := [instKey inst] }

/-- The merge of serviceaccount.go lines 91-105: deep-copy the existing
object, adopt the desired owner references, and overwrite the
label/annotation keys the builder controls, preserving all other live
entries. -/
def mergeServiceAccount (existing desired : ServiceAccount) : ServiceAccount :=
  let updated := { existing with ownerRefs := desired.ownerRefs }
  let updated := { updated with annotations := smapInsertAll updated.annotations desired.annotations }
  { updated with labels := smapInsertAll updated.labels desired.labels }

/-- The live object store. -/
structure Store where
  objects : List ServiceAccount
deriving DecidableEq

def storeGet (st : Store) (ns name : String) : Option ServiceAccount :=
  st.objects.find? fun o => o.ns == ns && o.name == name

def storeAdd (st : Store) (sa : ServiceAccount) : Store :=
  ⟨st.objects ++ [sa]⟩

def storeReplace (st : Store) (sa : ServiceAccount) : Store :=
  ⟨st.objects.map fun o => if o.ns == sa.ns && o.name == sa.name then sa else o⟩

def storeRemove (st : Store) (sa : ServiceAccount) : Store :=
  ⟨st.objects.filter fun o => ¬(o.ns == sa.ns && o.name == sa.name)⟩

/-- Modelled from the spec: the object store abstraction's fault surface
(§6: get/list/create/patch/delete "all may fail with NotFound, Conflict,
or Other(error)").  A `true` entry injects an `Other(error)` outcome for
that identity; `NotFound` is produced by the store contents themselves. -/
structure Faults where
  onGet : String × String → Bool
  onCreate : String × String → Bool
  onPatch : String × String → Bool
  onList : Bool
  onDelete : String × String → Bool

def noFaults : Faults :=
  ⟨fun _ => false, fun _ => false, fun _ => false, false, fun _ => false⟩

inductive GetRes where
  | notFound
  | otherErr
  | found (sa : ServiceAccount)

/-- `params.Client.Get(ctx, nns, existing)`. -/
def clientGet (st : Store) (f : Faults) (ns name : String) : GetRes :=
  if f.onGet (ns, name) then .otherErr
  else
    match storeGet st ns name with
    | some sa => .found sa
    | none => .notFound

/-- Store operation issued during a reconcile pass. -/
inductive Op where
  | create (sa : ServiceAccount)
  | patch (updated existing : ServiceAccount)
  | delete (sa : ServiceAccount)
deriving DecidableEq

/-- `expectedServiceAccounts` (serviceaccount.go lines 69-117): for each
desired object, attach the controller reference, fetch by identity;
NotFound routes to create, any other get/create error returns; an
existing object is merged and a patch is issued unconditionally
(`client.MergeFrom(existing)` against `updated`), a patch error
returns. -/
def expectedServiceAccounts (f : Faults) (inst : Instance) :
    Store → List ServiceAccount → Except String (Store × List Op)
  | st, [] => .ok (st, [])
  | st, obj :: rest =>
    let desired := setControllerReference inst obj
    match clientGet st f desired.ns desired.name with
    | .otherErr => .error "failed to get"
    | .notFound =>
      if f.onCreate (desired.ns, desired.name) then .error "failed to create"
      else
        match expectedServiceAccounts f inst (storeAdd st desired) rest with
        | .error e => .error e
        | .ok (st', ops) => .ok (st', .create desired :: ops)
    | .found existing =>
      let updated := mergeServiceAccount existing desired
      if f.onPatch (desired.ns, desired.name) then .error "failed to apply changes"
      else
        match expectedServiceAccounts f inst (storeReplace st updated) rest with
        | .error e => .error e
        | .ok (st', ops) => .ok (st', .patch updated existing :: ops)

/-- The ownership label selector of `deleteServiceAccounts`
(serviceaccount.go lines 120-126). -/
def ownershipSelector (inst : Instance) : Smap :=
  [("app.kubernetes.io/instance", inst.ns ++ "." ++ inst.name),
   ("app.kubernetes.io/managed-by", "amazon-cloudwatch-agent-operator")]

/-- Kubernetes label-selector semantics: every selector entry is present
in the object's labels with the same value. -/
def matchesSelector (sel : Smap) (labels : Smap) : Bool :=
  sel.all fun e => smapGet labels e.1 == some e.2

/-- `params.Client.List` with `client.InNamespace` and
`client.MatchingLabels`. -/
def clientList (st : Store) (f : Faults) (ns : String) (sel : Smap) :
    Except String (List ServiceAccount) :=
  if f.onList then .error "failed to list"
  else .ok (st.objects.filter fun o => o.ns == ns && matchesSelector sel o.labels)

/-- `keep.Name == existing.Name && keep.Namespace == existing.Namespace`. -/
def keepMatches (existing keep : ServiceAccount) : Bool :=
  keep.name == existing.name && keep.ns == existing.ns

/-- The deletion loop of `deleteServiceAccounts` (lines 132-148): delete
every listed object whose identity is in no expected object; a delete
error returns. -/
def deleteLoop (f : Faults) (expected : List ServiceAccount) :
    Store → List ServiceAccount → Except String (Store × List Op)
  | st, [] => .ok (st, [])
  | st, existing :: rest =>
    if expected.any (keepMatches existing) then deleteLoop f expected st rest
    else if f.onDelete (existing.ns, existing.name) then .error "failed to delete"
    else
      match deleteLoop f expected (storeRemove st existing) rest with
      | .error e => .error e
      | .ok (st', ops) => .ok (st', .delete existing :: ops)

/-- `deleteServiceAccounts` (serviceaccount.go lines 119-151). -/
def deleteServiceAccounts (f : Faults) (inst : Instance) (st : Store)
    (expected : List ServiceAccount) : Except String (Store × List Op) :=
  match clientList st f inst.ns (ownershipSelector inst) with
  | .error e => .error e
  | .ok items => deleteLoop f expected st items

/-- Modelled from the spec: `collector.ServiceAccount(params.Instance)`
(the manifest builder for the collector's service account is not under
src/).  Per §6, the rendered object carries the managing-identity,
logical-grouping, component-role and owning-instance labels, and is named
after the instance. -/
def collectorServiceAccount (inst : Instance) : ServiceAccount :=
  { name := inst.name ++ "-collector"
    ns := inst.ns
    labels :=
      [("app.kubernetes.io/component", "opentelemetry-collector"),
       ("app.kubernetes.io/instance", inst.ns ++ "." ++ inst.name),
       ("app.kubernetes.io/managed-by", "amazon-cloudwatch-agent-operator"),
       ("app.kubernetes.io/part-of", "opentelemetry")]
    annotations := []
    ownerRefs := [] }

/-- `desiredServiceAccounts` (serviceaccount.go lines 61-67). -/
def desiredServiceAccounts (inst : Instance) : List ServiceAccount :=
  if inst.mode ≠ "sidecar" ∧ inst.serviceAccount = "" then
    [collectorServiceAccount inst]
  else []

/-- `ServiceAccounts` (serviceaccount.go lines 45-59): the create/update
phase, then the garbage-collection phase; a phase error is wrapped and
returned to the caller. -/
def ServiceAccounts (f : Faults) (inst : Instance) (st : Store) :
    Except String (Store × List Op) :=
  let desired := desiredServiceAccounts inst
  match expectedServiceAccounts f inst st desired with
  | .error e => .error ("failed to reconcile the expected service accounts: " ++ e)
  | .ok (st', ops) =>
    match deleteServiceAccounts f inst st' desired with
    | .error e => .error ("failed to reconcile the service accounts to be deleted: " ++ e)
    | .ok (st'', ops') => .ok (st'', ops ++ ops')

/-! ## Instrumentation batch upgrader

Embedding of `InstrumentationUpgrade.upgrade` and the write decision of
`InstrumentationUpgrade.ManagedInstances` (pkg/instrumentation/upgrade in
src).  `upgrade` receives the instance by value, deep-copies it and
returns a pointer to the copy; `ManagedInstances` then compares that
pointer against the stored value with `reflect.DeepEqual`. -/

/-- The Instrumentation fields the upgrader reads and writes. -/
structure Instrumentation where
  annotations : Smap
  javaImage : String
deriving DecidableEq

/-- Modelled from the spec: the annotation keys of the repository's
`constants` package (not under src/).  Only distinctness of the keys
matters to the upgrader. -/
def AnnotationDefaultAutoInstrumentationJava : String :=
  "instrumentation.opentelemetry.io/default-auto-instrumentation-java-image"

def AnnotationDefaultAutoInstrumentationNodeJS : String :=
  "instrumentation.opentelemetry.io/default-auto-instrumentation-nodejs-image"

def AnnotationDefaultAutoInstrumentationPython : String :=
  "instrumentation.opentelemetry.io/default-auto-instrumentation-python-image"

def AnnotationDefaultAutoInstrumentationDotNet : String :=
  "instrumentation.opentelemetry.io/default-auto-instrumentation-dotnet-image"

def AnnotationDefaultAutoInstrumentationGo : String :=
  "instrumentation.opentelemetry.io/default-auto-instrumentation-go-image"

def AnnotationDefaultAutoInstrumentationApacheHttpd : String :=
  "instrumentation.opentelemetry.io/default-auto-instrumentation-apache-httpd-image"

def AnnotationDefaultAutoInstrumentationNginx : String :=
  "instrumentation.opentelemetry.io/default-auto-instrumentation-nginx-image"

/-- The key set of `defaultAnnotationToGate`; Go map iteration order is
unspecified, we iterate in this fixed order (only the Java entry has an
effect in the switch). -/
def annotationGateKeys : List String :=
  [AnnotationDefaultAutoInstrumentationJava,
   AnnotationDefaultAutoInstrumentationNodeJS,
   AnnotationDefaultAutoInstrumentationPython,
   AnnotationDefaultAutoInstrumentationDotNet,
   AnnotationDefaultAutoInstrumentationGo,
   AnnotationDefaultAutoInstrumentationApacheHttpd,
   AnnotationDefaultAutoInstrumentationNginx]

/-- One iteration of the loop of `upgrade` (defaultinstrumentation_test.go
part, lines 254-270): `gates` is each gate's `IsEnabled()`, `dj` is
`u.DefaultAutoInstJava`, `inst` the original (by-value) argument,
`upgraded` the running deep copy. -/
def upgradeAnnoStep (gates : String → Bool) (dj : String)
    (inst upgraded : Instrumentation) (anno : String) : Instrumentation :=
  let autoInst := (smapGet upgraded.annotations anno).getD ""
  if autoInst ≠ "" then
    if gates anno then
      if anno = AnnotationDefaultAutoInstrumentationJava then
        if inst.javaImage = autoInst then
          { javaImage := dj, annotations := smapInsert upgraded.annotations anno dj }
        else upgraded
      else upgraded
    else upgraded
  else upgraded

/-- `InstrumentationUpgrade.upgrade`: deep-copy the by-value argument and
run the annotation loop on the copy; the caller's value is never
touched. -/
def instUpgrade (gates : String → Bool) (dj : String)
    (inst : Instrumentation) : Instrumentation :=
  annotationGateKeys.foldl (upgradeAnnoStep gates dj inst) inst

/-- A Go value as seen by `reflect.DeepEqual`: `upgrade` returns a
`*Instrumentation` while the list item is an `Instrumentation`. -/
inductive GoVal where
  | instVal (i : Instrumentation)
  | instPtr (i : Instrumentation)

/-- `reflect.DeepEqual`: values of distinct types are never deeply equal;
two non-nil pointers are deeply equal when their targets are. -/
def reflectDeepEqual : GoVal → GoVal → Bool
  | .instVal a, .instVal b => decide (a = b)
  | .instPtr a, .instPtr b => decide (a = b)
  | _, _ => false

/-- The write decision of `ManagedInstances` (lines 234-244): for each
listed instance, upgrade it and issue `Client.Update` unless
`reflect.DeepEqual(upgraded, toUpgrade)`; returns the updates issued. -/
def managedInstancesUpdates (gates : String → Bool) (dj : String)
    (items : List Instrumentation) : List Instrumentation :=
  items.filterMap fun toUpgrade =>
    let upgraded := instUpgrade gates dj toUpgrade
    if ¬ reflectDeepEqual (.instPtr upgraded) (.instVal toUpgrade) then some upgraded
    else none

/-! ## Instrumentation webhook environment-variable validation

Embedding of `InstrumentationWebhook.validateEnv`
(src/apis/v1alpha1/instrumentation_webhook.go lines 156-163). -/

structure EnvVar where
  name : String
  value : String
deriving DecidableEq

def envPrefixStr : String := "OTEL_"

def envSplunkPrefixStr : String := "SPLUNK_"

/-- `validateEnv`: the first env var whose name has neither prefix yields
the error; otherwise nil. -/
def validateEnv : List EnvVar → Option String
  | [] => none
  | env :: rest =>
    if ¬ startsWithGo env.name envPrefixStr ∧ ¬ startsWithGo env.name envSplunkPrefixStr then
      some ("env name should start with \"OTEL_\" or \"SPLUNK_\": " ++ env.name)
    else validateEnv rest

/-! ## Concrete fixtures used in witnesses and counterexamples -/

/-- Does the looked-up value exist and have map shape (the target of the
Go type assertion `cfg["receivers"].(map[interface{}]interface{})`)? -/
def isMapVal : Option YVal → Bool
  | some (.map _) => true
  | _ => false

/-- An already-fully-upgraded configuration (no influxdb receiver),
formatted with four-space indentation. -/
def agent31NoInflux : AmazonCloudWatchAgent := ⟨"receivers:\n    otlp: null\n"⟩

/-- The same configuration after yaml.v2 re-serialization (two-space
indentation). -/
def agent31Reserialized : AmazonCloudWatchAgent := ⟨"receivers:\n  otlp: null\n"⟩

/-- A configuration with an influxdb receiver carrying the deprecated
`metrics_schema` field. -/
def agent31Influx : AmazonCloudWatchAgent :=
  ⟨"receivers:\n  influxdb:\n    metrics_schema: telegraf\n"⟩

/-- `agent31Influx` after the upgrade step dropped the field and
re-serialized. -/
def agent31InfluxAfter : AmazonCloudWatchAgent :=
  ⟨"receivers:\n  influxdb: \x7b\x7d\n"⟩

/-- A well-formed configuration whose receivers map has the non-string
key `1`. -/
def agent31IntKey : AmazonCloudWatchAgent := ⟨"receivers:\n  1: null\n"⟩

/-- A reconciled instance. -/
def instT : Instance := ⟨"test", "tns", "deployment", ""⟩

/-- Live objects A, B, C sharing the ownership labels of `instT`. -/
def saA : ServiceAccount := ⟨"a", "tns", ownershipSelector instT, [], []⟩

def saB : ServiceAccount := ⟨"b", "tns", ownershipSelector instT, [], []⟩

def saC : ServiceAccount := ⟨"c", "tns", ownershipSelector instT, [], []⟩

def storeABC : Store := ⟨[saA, saB, saC]⟩

/-- A desired ServiceAccount, and the converged live object it maps to
(identical up to the controller owner reference already being set). -/
def saXdesired : ServiceAccount := ⟨"x", "tns", ownershipSelector instT, [], []⟩

def saXlive : ServiceAccount := ⟨"x", "tns", ownershipSelector instT, [], [instKey instT]⟩

/-- Fault configurations injecting one `Other(error)` outcome each. -/
def faultGetX : Faults :=
  { noFaults with onGet := fun p => p.1 == "tns" && p.2 == "x" }

def faultCreateX : Faults :=
  { noFaults with onCreate := fun p => p.1 == "tns" && p.2 == "x" }

def faultPatchX : Faults :=
  { noFaults with onPatch := fun p => p.1 == "tns" && p.2 == "x" }

def faultListOnly : Faults := { noFaults with onList := true }

def faultDeleteB : Faults :=
  { noFaults with onDelete := fun p => p.1 == "tns" && p.2 == "b" }

def faultGetCollector : Faults :=
  { noFaults with onGet := fun p => p.2 == "test-collector" }

/-! ### Upgrade-step helper lemmas shared between claims -/

theorem upg31_empty (a : AmazonCloudWatchAgent) (h : a.specConfig = "") :
    upgrade0_31_0 a = .ret ⟨a, a, false⟩ := by
  simp [upgrade0_31_0, h]

theorem upg31_noRecvMap (a : AmazonCloudWatchAgent) (d : Doc)
    (hp : parseYamlDoc a.specConfig = .ok d)
    (hm : isMapVal (docGet d "receivers") = false) :
    upgrade0_31_0 a = .ret ⟨a, a, false⟩ := by
  by_cases h0 : a.specConfig = ""
  · simp [upgrade0_31_0, h0]
  · rcases hv : docGet d "receivers" with _ | v
    · simp [upgrade0_31_0, h0, hp, hv]
    · cases v with
      | map rs => rw [hv] at hm; simp [isMapVal] at hm
      | str s => simp [upgrade0_31_0, h0, hp, hv]
      | int n => simp [upgrade0_31_0, h0, hp, hv]
      | bool b => simp [upgrade0_31_0, h0, hp, hv]
      | null => simp [upgrade0_31_0, h0, hp, hv]

theorem upg31_parseErr (a : AmazonCloudWatchAgent)
    (hp : parseYamlDoc a.specConfig = .error ()) :
    upgrade0_31_0 a = .ret ⟨a, a, true⟩ := by
  have h0 : ¬ a.specConfig = "" := by
    intro h
    rw [h] at hp
    have hok : parseYamlDoc "" = .ok [] := rfl
    rw [hok] at hp
    exact Except.noConfusion hp
  simp [upgrade0_31_0, h0, hp]

theorem upg31_received_eq_returned (a : AmazonCloudWatchAgent) (r : StepRet)
    (h : upgrade0_31_0 a = .ret r) : r.received = r.returned := by
  unfold upgrade0_31_0 at h
  repeat' split at h
  all_goals
    first
      | exact StepOutcome.noConfusion h
      | (injection h with h2; subst h2; rfl)

/-! ### ServiceAccount reconciler helper lemmas -/

theorem noFaults_onGet (p : String × String) : noFaults.onGet p = false := rfl

theorem noFaults_onCreate (p : String × String) : noFaults.onCreate p = false := rfl

theorem noFaults_onPatch (p : String × String) : noFaults.onPatch p = false := rfl

theorem noFaults_onList : noFaults.onList = false := rfl

theorem noFaults_onDelete (p : String × String) : noFaults.onDelete p = false := rfl

theorem setCtrlRef_ns (inst : Instance) (sa : ServiceAccount) :
    (setControllerReference inst sa).ns = sa.ns := rfl

theorem setCtrlRef_name (inst : Instance) (sa : ServiceAccount) :
    (setControllerReference inst sa).name = sa.name := rfl

theorem deleteLoop_noFaults (expected : List ServiceAccount) :
    ∀ (st : Store) (items : List ServiceAccount), ∃ st',
      deleteLoop noFaults expected st items =
        .ok (st', (items.filter fun e => !(expected.any (keepMatches e))).map Op.delete) := by
  intro st items
  induction items generalizing st with
  | nil => exact ⟨st, rfl⟩
  | cons existing rest ih =>
    by_cases h : expected.any (keepMatches existing) = true
    · obtain ⟨st', hst⟩ := ih st
      exact ⟨st', by simp [deleteLoop, h, hst]⟩
    · obtain ⟨st', hst⟩ := ih (storeRemove st existing)
      refine ⟨st', ?_⟩
      simp only [Bool.not_eq_true] at h
      simp [deleteLoop, h, hst, noFaults_onDelete]

theorem expected_noFaults_ok (inst : Instance) :
    ∀ (desired : List ServiceAccount) (st : Store),
      ∃ r, expectedServiceAccounts noFaults inst st desired = .ok r := by
  intro desired
  induction desired with
  | nil => exact fun st => ⟨(st, []), rfl⟩
  | cons obj rest ih =>
    intro st
    cases hget : storeGet st obj.ns obj.name with
    | none =>
      obtain ⟨⟨st', ops⟩, hr⟩ := ih (storeAdd st (setControllerReference inst obj))
      exact ⟨(st', .create (setControllerReference inst obj) :: ops), by
        simp [expectedServiceAccounts, clientGet, noFaults_onGet, noFaults_onCreate,
          setCtrlRef_ns, setCtrlRef_name, hget, hr]⟩
    | some existing =>
      obtain ⟨⟨st', ops⟩, hr⟩ := ih
        (storeReplace st (mergeServiceAccount existing (setControllerReference inst obj)))
      exact ⟨(st', .patch (mergeServiceAccount existing (setControllerReference inst obj))
          existing :: ops), by
        simp [expectedServiceAccounts, clientGet, noFaults_onGet, noFaults_onPatch,
          setCtrlRef_ns, setCtrlRef_name, hget, hr]⟩

/-- C1 (confirmed): in the garbage-collection phase of a ServiceAccount
reconcile pass, a delete is issued for exactly those live objects that
are in the instance's namespace, carry the ownership labels (owning
instance and managed-by), and whose (name, namespace) identity appears in
no desired object; in particular live set A, B, C with desired set A, C
deletes exactly B. -/
theorem c1_garbage_collection :
    (∀ (st : Store) (inst : Instance) (expected : List ServiceAccount),
      ∃ st' ops, deleteServiceAccounts noFaults inst st expected = .ok (st', ops) ∧
        ∀ sa : ServiceAccount, Op.delete sa ∈ ops ↔
          sa ∈ st.objects ∧ sa.ns = inst.ns ∧
          matchesSelector (ownershipSelector inst) sa.labels = true ∧
          ¬ ∃ keep ∈ expected, keep.name = sa.name ∧ keep.ns = sa.ns) ∧
    deleteServiceAccounts noFaults instT storeABC [saA, saC] =
      .ok (⟨[saA, saC]⟩, [Op.delete saB]) := by
  constructor
  · intro st inst expected
    obtain ⟨st', hst⟩ := deleteLoop_noFaults expected st
      (st.objects.filter fun o => o.ns == inst.ns &&
        matchesSelector (ownershipSelector inst) o.labels)
    refine ⟨st', _, hst, ?_⟩
    intro sa
    simp only [List.mem_map, List.mem_filter, Bool.not_eq_true', List.any_eq_false,
      keepMatches, Bool.and_eq_true, beq_iff_eq, Op.delete.injEq]
    constructor
    · rintro ⟨a, ⟨⟨ha, hns, hsel⟩, hkeep⟩, rfl⟩
      exact ⟨ha, hns, hsel, fun ⟨keep, hk, h1, h2⟩ => by simpa [h1, h2] using hkeep keep hk⟩
    · rintro ⟨ha, hns, hsel, hkeep⟩
      refine ⟨sa, ⟨⟨ha, hns, hsel⟩, ?_⟩, rfl⟩
      intro keep hk
      exact fun hc => hkeep ⟨keep, hk, hc.1, hc.2⟩
  · rfl

/-- C2 (corrected — counterexample): the claim "a patch is issued only
when the merged result differs from the live object" fails: for a live
object already identical to the merged result, the loop still issues a
patch (with `updated = existing`). -/
theorem c2_counterexample :
    mergeServiceAccount saXlive (setControllerReference instT saXdesired) = saXlive ∧
    expectedServiceAccounts noFaults instT ⟨[saXlive]⟩ [saXdesired] =
      .ok (⟨[saXlive]⟩, [Op.patch saXlive saXlive]) := by
  exact ⟨rfl, rfl⟩

/-- C2 (amended): for every desired ServiceAccount that already exists in
the live store, the reconciler unconditionally issues a merge patch
carrying the merged result against the live object — also when the
merged result equals the live object (the patch is then an empty
diff). -/
theorem c2_always_patches (st : Store) (inst : Instance) (obj existing : ServiceAccount)
    (hget : storeGet st obj.ns obj.name = some existing) :
    expectedServiceAccounts noFaults inst st [obj] =
      .ok (storeReplace st (mergeServiceAccount existing (setControllerReference inst obj)),
        [Op.patch (mergeServiceAccount existing (setControllerReference inst obj)) existing]) := by
  simp [expectedServiceAccounts, clientGet, noFaults_onGet, noFaults_onPatch,
    setCtrlRef_ns, setCtrlRef_name, hget]

/-- C2 witness: `c2_always_patches` at the converged concrete store. -/
theorem c2_witness :
    expectedServiceAccounts noFaults instT ⟨[saXlive]⟩ [saXdesired] =
      .ok (storeReplace ⟨[saXlive]⟩
          (mergeServiceAccount saXlive (setControllerReference instT saXdesired)),
        [Op.patch (mergeServiceAccount saXlive (setControllerReference instT saXdesired))
          saXlive]) :=
  c2_always_patches ⟨[saXlive]⟩ instT saXdesired saXlive rfl

/-- C8 (confirmed): during the ServiceAccount reconcile pass a NotFound
on fetch routes to a create and is not a failure (a pass against a
fault-free store always succeeds); any other error from get, create,
patch, list or delete aborts the pass, and phase errors are wrapped and
returned to the caller by `ServiceAccounts`. -/
theorem c8_error_routing :
    (∀ (st : Store) (inst : Instance) (obj : ServiceAccount),
      storeGet st obj.ns obj.name = none →
      expectedServiceAccounts noFaults inst st [obj] =
        .ok (storeAdd st (setControllerReference inst obj),
          [Op.create (setControllerReference inst obj)])) ∧
    (∀ (inst : Instance) (st : Store), ∃ r, ServiceAccounts noFaults inst st = .ok r) ∧
    (∀ (f : Faults) (st : Store) (inst : Instance) (obj : ServiceAccount)
        (rest : List ServiceAccount),
      f.onGet (obj.ns, obj.name) = true →
      expectedServiceAccounts f inst st (obj :: rest) = .error "failed to get") ∧
    (∀ (f : Faults) (st : Store) (inst : Instance) (obj : ServiceAccount)
        (rest : List ServiceAccount),
      f.onGet (obj.ns, obj.name) = false → storeGet st obj.ns obj.name = none →
      f.onCreate (obj.ns, obj.name) = true →
      expectedServiceAccounts f inst st (obj :: rest) = .error "failed to create") ∧
    (∀ (f : Faults) (st : Store) (inst : Instance) (obj existing : ServiceAccount)
        (rest : List ServiceAccount),
      f.onGet (obj.ns, obj.name) = false → storeGet st obj.ns obj.name = some existing →
      f.onPatch (obj.ns, obj.name) = true →
      expectedServiceAccounts f inst st (obj :: rest) = .error "failed to apply changes") ∧
    (∀ (f : Faults) (st : Store) (inst : Instance) (expected : List ServiceAccount),
      f.onList = true →
      deleteServiceAccounts f inst st expected = .error "failed to list") ∧
    (∀ (f : Faults) (expected : List ServiceAccount) (st : Store)
        (existing : ServiceAccount) (rest : List ServiceAccount),
      expected.any (keepMatches existing) = false →
      f.onDelete (existing.ns, existing.name) = true →
      deleteLoop f expected st (existing :: rest) = .error "failed to delete") ∧
    (∀ (f : Faults) (inst : Instance) (st : Store) (e : String),
      expectedServiceAccounts f inst st (desiredServiceAccounts inst) = .error e →
      ServiceAccounts f inst st =
        .error ("failed to reconcile the expected service accounts: " ++ e)) ∧
    (∀ (f : Faults) (inst : Instance) (st st' : Store) (ops : List Op) (e : String),
      expectedServiceAccounts f inst st (desiredServiceAccounts inst) = .ok (st', ops) →
      deleteServiceAccounts f inst st' (desiredServiceAccounts inst) = .error e →
      ServiceAccounts f inst st =
        .error ("failed to reconcile the service accounts to be deleted: " ++ e)) := by
  refine ⟨?_, ?_, ?_, ?_, ?_, ?_, ?_, ?_, ?_⟩
  · intro st inst obj hget
    simp [expectedServiceAccounts, clientGet, noFaults_onGet, noFaults_onCreate,
      setCtrlRef_ns, setCtrlRef_name, hget]
  · intro inst st
    obtain ⟨⟨st', ops⟩, h1⟩ := expected_noFaults_ok inst (desiredServiceAccounts inst) st
    obtain ⟨st'', h2⟩ := deleteLoop_noFaults (desiredServiceAccounts inst) st'
      (st'.objects.filter fun o => o.ns == inst.ns &&
        matchesSelector (ownershipSelector inst) o.labels)
    refine ⟨(st'', ops ++ ((st'.objects.filter fun o => o.ns == inst.ns &&
        matchesSelector (ownershipSelector inst) o.labels).filter fun e =>
          !(desiredServiceAccounts inst).any (keepMatches e)).map Op.delete), ?_⟩
    simp only [ServiceAccounts, h1, deleteServiceAccounts, clientList, noFaults_onList,
      Bool.false_eq_true, if_false]
    rw [h2]
  · intro f st inst obj rest h
    simp [expectedServiceAccounts, clientGet, setControllerReference, h]
  · intro f st inst obj rest hg hget hc
    simp [expectedServiceAccounts, clientGet, setControllerReference, hg, hget, hc]
  · intro f st inst obj existing rest hg hget hp
    simp [expectedServiceAccounts, clientGet, setControllerReference, hg, hget, hp]
  · intro f st inst expected h
    simp [deleteServiceAccounts, clientList, h]
  · intro f expected st existing rest h1 h2
    simp [deleteLoop, h1, h2]
  · intro f inst st e h
    simp [ServiceAccounts, h]
  · intro f inst st st' ops e h1 h2
    simp [ServiceAccounts, h1, h2]

/-- C8 witness: each error-routing clause of `c8_error_routing`
discharged at a concrete store and fault configuration. -/
theorem c8_witness :
    (expectedServiceAccounts noFaults instT ⟨[]⟩ [saXdesired] =
      .ok (storeAdd ⟨[]⟩ (setControllerReference instT saXdesired),
        [Op.create (setControllerReference instT saXdesired)])) ∧
    (∃ r, ServiceAccounts noFaults instT ⟨[]⟩ = .ok r) ∧
    (expectedServiceAccounts faultGetX instT ⟨[]⟩ [saXdesired] = .error "failed to get") ∧
    (expectedServiceAccounts faultCreateX instT ⟨[]⟩ [saXdesired] =
      .error "failed to create") ∧
    (expectedServiceAccounts faultPatchX instT ⟨[saXlive]⟩ [saXdesired] =
      .error "failed to apply changes") ∧
    (deleteServiceAccounts faultListOnly instT storeABC [saA, saC] =
      .error "failed to list") ∧
    (deleteLoop faultDeleteB [] storeABC [saB] = .error "failed to delete") ∧
    (ServiceAccounts faultGetCollector instT ⟨[]⟩ =
      .error ("failed to reconcile the expected service accounts: " ++ "failed to get")) ∧
    (ServiceAccounts faultDeleteB instT ⟨[saB]⟩ =
      .error ("failed to reconcile the service accounts to be deleted: " ++
        "failed to delete")) :=
  ⟨c8_error_routing.1 ⟨[]⟩ instT saXdesired rfl,
   c8_error_routing.2.1 instT ⟨[]⟩,
   c8_error_routing.2.2.1 faultGetX ⟨[]⟩ instT saXdesired [] rfl,
   c8_error_routing.2.2.2.1 faultCreateX ⟨[]⟩ instT saXdesired [] rfl rfl rfl,
   c8_error_routing.2.2.2.2.1 faultPatchX ⟨[saXlive]⟩ instT saXdesired saXlive [] rfl rfl rfl,
   c8_error_routing.2.2.2.2.2.1 faultListOnly storeABC instT [saA, saC] rfl,
   c8_error_routing.2.2.2.2.2.2.1 faultDeleteB [] storeABC saB [] rfl rfl,
   c8_error_routing.2.2.2.2.2.2.2.1 faultGetCollector instT ⟨[]⟩ "failed to get" rfl,
   c8_error_routing.2.2.2.2.2.2.2.2 faultDeleteB instT ⟨[saB]⟩
     ⟨[saB, setControllerReference instT (collectorServiceAccount instT)]⟩
     [Op.create (setControllerReference instT (collectorServiceAccount instT))]
     "failed to delete" rfl rfl⟩

/-- C3 (corrected — counterexample): the claim "the embedded configuration
text is not mutated, byte for byte" fails on an already-fully-upgraded
specification: `agent31NoInflux` contains no influxdb receiver, yet the
step re-marshals the parsed document and rewrites the text (four-space
indentation becomes two-space). -/
theorem c3_counterexample :
    upgrade0_31_0 agent31NoInflux =
      .ret ⟨agent31Reserialized, agent31Reserialized, false⟩ ∧
    agent31Reserialized.specConfig ≠ agent31NoInflux.specConfig := by
  constructor
  · rfl
  · decide

/-- C3 (amended): the v0.31.0 step leaves the specification byte-for-byte
unchanged on every specification whose embedded configuration is empty
or whose parsed document has no receivers map; when a receivers map is
present the step re-serializes the parsed document into the text instead
of preserving the original bytes — at the concrete already-upgraded
input with a receivers map, the step succeeds and the parsed document is
preserved, but the text's formatting changes. -/
theorem c3_already_upgraded_noop :
    (∀ a : AmazonCloudWatchAgent, a.specConfig = "" →
      upgrade0_31_0 a = .ret ⟨a, a, false⟩) ∧
    (∀ (a : AmazonCloudWatchAgent) (d : Doc), parseYamlDoc a.specConfig = .ok d →
      isMapVal (docGet d "receivers") = false →
      upgrade0_31_0 a = .ret ⟨a, a, false⟩) ∧
    (upgrade0_31_0 agent31NoInflux =
        .ret ⟨agent31Reserialized, agent31Reserialized, false⟩ ∧
      agent31Reserialized.specConfig ≠ agent31NoInflux.specConfig ∧
      parseYamlDoc agent31Reserialized.specConfig =
        parseYamlDoc agent31NoInflux.specConfig) :=
  ⟨upg31_empty, upg31_noRecvMap, rfl, by decide, rfl⟩

/-- C3 witness: the hypotheses of `c3_already_upgraded_noop` discharged at
concrete inputs. -/
theorem c3_witness :
    upgrade0_31_0 ⟨""⟩ = .ret ⟨⟨""⟩, ⟨""⟩, false⟩ ∧
    upgrade0_31_0 ⟨"exporters: logging"⟩ =
      .ret ⟨⟨"exporters: logging"⟩, ⟨"exporters: logging"⟩, false⟩ :=
  ⟨c3_already_upgraded_noop.1 ⟨""⟩ rfl,
   c3_already_upgraded_noop.2.1 ⟨"exporters: logging"⟩
     [(.str "exporters", .str "logging")] rfl rfl⟩

/-- C4 (code bug): the v0.31.0 transform is claimed never to panic on
wrongly-typed branches, but the unchecked type assertion `k.(string)` in
the receivers loop panics when the well-formed configuration
`receivers:\n  1: null\n` (receivers map with the non-string key `1`) is
processed. -/
theorem c4_panics_on_nonstring_key :
    upgrade0_31_0 agent31IntKey = .panicked := by
  rfl

/-- C5 (corrected — counterexample): the claim "the caller's original
specification value is unchanged after an upgrade step" fails:
`upgrade0_31_0` assigns the re-marshalled configuration through the
received pointer, so after the call the received object differs from the
original. -/
theorem c5_counterexample :
    upgrade0_31_0 agent31Influx =
      .ret ⟨agent31InfluxAfter, agent31InfluxAfter, false⟩ ∧
    agent31InfluxAfter ≠ agent31Influx := by
  constructor
  · rfl
  · decide

/-- C5 (amended): the v0.31.0 step mutates the received specification in
place and returns that same object — whenever the step returns, the
received object's final state equals the returned object, and at the
concrete input that state differs from the original. -/
theorem c5_step_mutates_in_place :
    (∀ (a : AmazonCloudWatchAgent) (r : StepRet),
      upgrade0_31_0 a = .ret r → r.received = r.returned) ∧
    (upgrade0_31_0 agent31Influx =
        .ret ⟨agent31InfluxAfter, agent31InfluxAfter, false⟩ ∧
      agent31InfluxAfter ≠ agent31Influx) :=
  ⟨upg31_received_eq_returned, rfl, by decide⟩

/-- C5 witness: the aliasing fact of `c5_step_mutates_in_place`
discharged at a concrete input. -/
theorem c5_witness :
    (StepRet.mk ⟨""⟩ ⟨""⟩ false).received = (StepRet.mk ⟨""⟩ ⟨""⟩ false).returned :=
  c5_step_mutates_in_place.1 ⟨""⟩ ⟨⟨""⟩, ⟨""⟩, false⟩ rfl

/-- C6 (confirmed): the v0.31.0 step succeeds as a no-op when there is
nothing to change — empty configuration, or parsed configuration with an
absent or non-map receivers entry — and on a parse failure returns an
error with the specification still carrying the original configuration
text. -/
theorem c6_noop_and_error_state :
    (∀ a : AmazonCloudWatchAgent, a.specConfig = "" →
      upgrade0_31_0 a = .ret ⟨a, a, false⟩) ∧
    (∀ (a : AmazonCloudWatchAgent) (d : Doc), parseYamlDoc a.specConfig = .ok d →
      isMapVal (docGet d "receivers") = false →
      upgrade0_31_0 a = .ret ⟨a, a, false⟩) ∧
    (∀ a : AmazonCloudWatchAgent, parseYamlDoc a.specConfig = .error () →
      upgrade0_31_0 a = .ret ⟨a, a, true⟩) :=
  ⟨upg31_empty, upg31_noRecvMap, upg31_parseErr⟩

/-- C6 witness: the hypotheses of `c6_noop_and_error_state` discharged at
concrete inputs, including the malformed configuration from the
adapters tests. -/
theorem c6_witness :
    upgrade0_31_0 ⟨""⟩ = .ret ⟨⟨""⟩, ⟨""⟩, false⟩ ∧
    upgrade0_31_0 ⟨"receivers: foo"⟩ =
      .ret ⟨⟨"receivers: foo"⟩, ⟨"receivers: foo"⟩, false⟩ ∧
    upgrade0_31_0 ⟨"🦄"⟩ = .ret ⟨⟨"🦄"⟩, ⟨"🦄"⟩, true⟩ :=
  ⟨c6_noop_and_error_state.1 ⟨""⟩ rfl,
   c6_noop_and_error_state.2.1 ⟨"receivers: foo"⟩
     [(.str "receivers", .str "foo")] rfl rfl,
   c6_noop_and_error_state.2.2 ⟨"🦄"⟩ rfl⟩

/-- C7 (confirmed, spec-modelled): parsing blank input yields an empty
document and no error; a parse failure yields exactly the distinguished
`ErrInvalidYAML` with no document; the two outcomes are mutually
exclusive on every input. -/
theorem c7_parse_contract :
    ConfigFromString "" = (some [], none) ∧
    ConfigFromString " \n  \n" = (some [], none) ∧
    (∀ s : String, (ConfigFromString s).1.isSome = true ↔ (ConfigFromString s).2 = none) ∧
    (∀ (s : String) (e : YamlErr), (ConfigFromString s).2 = some e →
      e = ErrInvalidYAML ∧ (ConfigFromString s).1 = none) ∧
    ConfigFromString "🦄" = (none, some ErrInvalidYAML) := by
  refine ⟨rfl, rfl, ?_, ?_, rfl⟩
  · intro s
    unfold ConfigFromString
    cases parseYamlDoc s <;> simp
  · intro s e h
    unfold ConfigFromString at h ⊢
    cases hp : parseYamlDoc s with
    | error u =>
      rw [hp] at h
      injection h with h'
      exact ⟨h'.symm, rfl⟩
    | ok d =>
      rw [hp] at h
      exact Option.noConfusion h

/-- C7 witness: the error-exclusivity hypothesis of `c7_parse_contract`
discharged at the malformed input from the adapters tests. -/
theorem c7_witness :
    ErrInvalidYAML = ErrInvalidYAML ∧ (ConfigFromString "🦄").1 = none :=
  c7_parse_contract.2.2.2.1 "🦄" ErrInvalidYAML rfl

/-- C9 (code bug): the claim "a store update is issued if and only if the
upgrade changed the instance" fails — `ManagedInstances` compares the
pointer returned by `upgrade` against the stored value with
`reflect.DeepEqual`, and values of distinct types are never deeply
equal, so an update is issued for every listed instance; in particular
for an instance the upgrade leaves unchanged. -/
theorem c9_update_always_issued :
    (∀ (gates : String → Bool) (dj : String) (items : List Instrumentation),
      managedInstancesUpdates gates dj items = items.map (instUpgrade gates dj)) ∧
    (instUpgrade (fun _ => true) "default-java" ⟨[], "img"⟩ = ⟨[], "img"⟩ ∧
      managedInstancesUpdates (fun _ => true) "default-java" [⟨[], "img"⟩] =
        [⟨[], "img"⟩]) := by
  constructor
  · intro gates dj items
    induction items with
    | nil => rfl
    | cons toUpgrade rest ih =>
      simp [managedInstancesUpdates, reflectDeepEqual] at ih ⊢
      exact ih
  · exact ⟨rfl, rfl⟩

/-- C10 (confirmed): instrumentation env-var validation fails exactly when
some env var name carries neither the `OTEL_` nor the `SPLUNK_` prefix;
on every list whose names all carry one of the prefixes — including the
empty list — it succeeds. -/
theorem c10_validateEnv_iff (envs : List EnvVar) :
    validateEnv envs ≠ none ↔
      ∃ env ∈ envs, startsWithGo env.name envPrefixStr = false ∧
        startsWithGo env.name envSplunkPrefixStr = false := by
  induction envs with
  | nil => simp [validateEnv]
  | cons env rest ih =>
    by_cases h : ¬ startsWithGo env.name envPrefixStr ∧
        ¬ startsWithGo env.name envSplunkPrefixStr
    · simp only [Bool.not_eq_true] at h
      simp [validateEnv, h]
    · rw [validateEnv, if_neg h]
      rw [Classical.not_and_iff_or_not_not, not_not, not_not] at h
      constructor
      · intro hv
        obtain ⟨e, he, h1, h2⟩ := ih.mp hv
        exact ⟨e, List.mem_cons_of_mem _ he, h1, h2⟩
      · rintro ⟨e, he, h1, h2⟩
        rcases List.mem_cons.mp he with rfl | he'
        · rcases h with h | h
          · rw [h] at h1; exact absurd h1 (by simp)
          · rw [h] at h2; exact absurd h2 (by simp)
        · exact ih.mpr ⟨e, he', h1, h2⟩

end CWAOperator
